import Mathlib

/-!
Verification of the schema-to-form value mapping core of `demo_app.py`
(repository `cj-mills/cjm-fasthtml-jsonschema`).

The embedded code is:
  * `get_default_values_from_schema` (demo_app.py lines 49-58): extract the
    `default` of each property of a JSON schema;
  * the coercion logic of the `submit` handler (demo_app.py lines 162-186):
    starting from the raw form data, set every boolean-typed property to the
    Boolean "key was present", then re-parse the values of integer- and
    number-typed properties, keeping the raw string when parsing fails;
  * `load_test_schema` (demo_app.py lines 40-46), with the file system and
    `json.load` as explicit parameters since they are external collaborators.

Python values are modelled by the inductive type `JValue`; Python dicts
become association lists (every dict the Python code builds has pairwise
distinct keys, which theorems assume through `Nodup` hypotheses where they
need it).  Python floats are modelled as rationals carrying the exact value
of the decimal literal (IEEE-754 rounding, `inf`/`nan` literals and
underscore separators are outside the scope of the claims, which only
depend on the success/failure routing of the parse).  Exceptions become an
explicit `Except` layer: `AttributeError` (calling `.get`/`.items` on a
non-dict) and `TypeError` (`in` or subscripting on an unsuitable value) are
the errors the source can actually raise while mapping.
-/

/-- A Python/JSON value: None, bool, int, float, str, list, dict. -/
inductive JValue where
  | null : JValue
  | bool : Bool → JValue
  | int : Int → JValue
  | float : Rat → JValue
  | str : String → JValue
  | arr : List JValue → JValue
  | obj : List (String × JValue) → JValue
  deriving Repr

mutual

def decEqJValue : (a : JValue) → (b : JValue) → Decidable (a = b)
  | .null, .null => isTrue rfl
  | .bool a, .bool b =>
    match decEq a b with
    | isTrue h => isTrue (by rw [h])
    | isFalse h => isFalse (fun hh => by cases hh; exact h rfl)
  | .int a, .int b =>
    match decEq a b with
    | isTrue h => isTrue (by rw [h])
    | isFalse h => isFalse (fun hh => by cases hh; exact h rfl)
  | .float a, .float b =>
    match decEq a b with
    | isTrue h => isTrue (by rw [h])
    | isFalse h => isFalse (fun hh => by cases hh; exact h rfl)
  | .str a, .str b =>
    match decEq a b with
    | isTrue h => isTrue (by rw [h])
    | isFalse h => isFalse (fun hh => by cases hh; exact h rfl)
  | .arr a, .arr b =>
    match decEqJList a b with
    | isTrue h => isTrue (by rw [h])
    | isFalse h => isFalse (fun hh => by cases hh; exact h rfl)
  | .obj a, .obj b =>
    match decEqJPairs a b with
    | isTrue h => isTrue (by rw [h])
    | isFalse h => isFalse (fun hh => by cases hh; exact h rfl)
  | .null, .bool _ | .null, .int _ | .null, .float _ | .null, .str _ | .null, .arr _ | .null, .obj _
  | .bool _, .null | .bool _, .int _ | .bool _, .float _ | .bool _, .str _ | .bool _, .arr _ | .bool _, .obj _
  | .int _, .null | .int _, .bool _ | .int _, .float _ | .int _, .str _ | .int _, .arr _ | .int _, .obj _
  | .float _, .null | .float _, .bool _ | .float _, .int _ | .float _, .str _ | .float _, .arr _ | .float _, .obj _
  | .str _, .null | .str _, .bool _ | .str _, .int _ | .str _, .float _ | .str _, .arr _ | .str _, .obj _
  | .arr _, .null | .arr _, .bool _ | .arr _, .int _ | .arr _, .float _ | .arr _, .str _ | .arr _, .obj _
  | .obj _, .null | .obj _, .bool _ | .obj _, .int _ | .obj _, .float _ | .obj _, .str _ | .obj _, .arr _ =>
    isFalse (fun h => by cases h)

def decEqJList : (a : List JValue) → (b : List JValue) → Decidable (a = b)
  | [], [] => isTrue rfl
  | [], _ :: _ => isFalse (fun h => by cases h)
  | _ :: _, [] => isFalse (fun h => by cases h)
  | x :: xs, y :: ys =>
    match decEqJValue x y, decEqJList xs ys with
    | isTrue h1, isTrue h2 => isTrue (by rw [h1, h2])
    | isFalse h1, _ => isFalse (fun h => by cases h; exact h1 rfl)
    | _, isFalse h2 => isFalse (fun h => by cases h; exact h2 rfl)

def decEqJPairs : (a : List (String × JValue)) → (b : List (String × JValue)) → Decidable (a = b)
  | [], [] => isTrue rfl
  | [], _ :: _ => isFalse (fun h => by cases h)
  | _ :: _, [] => isFalse (fun h => by cases h)
  | (k, v) :: xs, (k2, v2) :: ys =>
    match decEq k k2, decEqJValue v v2, decEqJPairs xs ys with
    | isTrue h0, isTrue h1, isTrue h2 => isTrue (by rw [h0, h1, h2])
    | isFalse h0, _, _ => isFalse (fun h => by cases h; exact h0 rfl)
    | _, isFalse h1, _ => isFalse (fun h => by cases h; exact h1 rfl)
    | _, _, isFalse h2 => isFalse (fun h => by cases h; exact h2 rfl)

end

instance : DecidableEq JValue := decEqJValue

/-- A Python dict with `JValue` values, as an association list. -/
abbrev JDict := List (String × JValue)

/-- The exceptions the embedded code can raise. -/
inductive PyErr where
  | attributeError : PyErr
  | typeError : PyErr
  | keyError : PyErr
  deriving DecidableEq, Repr

/-- Key membership test of a Python dict (`k in d`). -/
def dictHasKey : List (String × α) → String → Bool
  | [], _ => false
  | p :: d, k => p.1 = k || dictHasKey d k

/-- Lookup in a Python dict (`d.get(k)`, i.e. `None` when absent). -/
def dictGet : List (String × α) → String → Option α
  | [], _ => none
  | p :: d, k => if p.1 = k then some p.2 else dictGet d k

/-- Write `d[k] = v` into a Python dict: update the entry in place when the
key exists, append a new entry otherwise. -/
def dictSet : List (String × α) → String → α → List (String × α)
  | [], k, v => [(k, v)]
  | p :: d, k, v => if p.1 = k then (k, v) :: d else p :: dictSet d k v

/-- The key list of a Python dict. -/
def dictKeys (d : List (String × α)) : List String :=
  d.map (fun p => p.1)

/-- Whether a `JValue` is a Python dict. -/
def JValue.isObj : JValue → Bool
  | .obj _ => true
  | _ => false

/-- The characters Python `str.strip()` removes by default. -/
def isPySpace (c : Char) : Bool :=
  c = ' ' || c = '\t' || c = '\n' || c = '\r' || c = '\x0b' || c = '\x0c'

/-- Strip leading and trailing whitespace, as `int(s)` / `float(s)` do. -/
def pyStrip (cs : List Char) : List Char :=
  ((cs.dropWhile isPySpace).reverse.dropWhile isPySpace).reverse

/-- The natural number denoted by a list of decimal digits. -/
def digitsToNat (ds : List Char) : Nat :=
  ds.foldl (fun a c => a * 10 + (c.toNat - '0'.toNat)) 0

/-- Decimal-digit test used by the parse models. -/
def isDigitChar (c : Char) : Bool :=
  '0' ≤ c && c ≤ '9'

/-- Model of Python `int(s)` on a string: optional surrounding whitespace,
optional sign, then a non-empty run of decimal digits; `none` models the
`ValueError` raised otherwise.  (Underscore separators and non-ASCII digits,
which CPython also accepts, are not modelled; no claim depends on them.) -/
def parsePyInt (s : String) : Option Int :=
  match pyStrip s.toList with
  | '+' :: rest =>
      if rest ≠ [] && rest.all isDigitChar then some (digitsToNat rest) else none
  | '-' :: rest =>
      if rest ≠ [] && rest.all isDigitChar then some (-(digitsToNat rest : Int)) else none
  | cs =>
      if cs ≠ [] && cs.all isDigitChar then some (digitsToNat cs) else none

/-- Parse the mantissa of a float literal: `d+`, `d+.`, `.d+` or `d+.d+`. -/
def parseMantissa (cs : List Char) : Option Rat :=
  if cs.contains '.' then
    let a := cs.takeWhile (fun c => c ≠ '.')
    let b := (cs.dropWhile (fun c => c ≠ '.')).drop 1
    if b.contains '.' then none
    else if (a ≠ [] || b ≠ []) && a.all isDigitChar && b.all isDigitChar then
      some ((digitsToNat a : Rat) + (digitsToNat b : Rat) / ((10 : Rat) ^ b.length))
    else none
  else if cs ≠ [] && cs.all isDigitChar then some (digitsToNat cs) else none

/-- Parse the exponent that follows `e`/`E`: optional sign, non-empty digits. -/
def parseExponent (cs : List Char) : Option Int :=
  match cs with
  | '+' :: ds => if ds ≠ [] && ds.all isDigitChar then some (digitsToNat ds) else none
  | '-' :: ds => if ds ≠ [] && ds.all isDigitChar then some (-(digitsToNat ds : Int)) else none
  | ds => if ds ≠ [] && ds.all isDigitChar then some (digitsToNat ds) else none

/-- Unsigned part of the float grammar: mantissa with optional exponent. -/
def parsePyFloatCore (cs : List Char) : Option Rat :=
  let mant := cs.takeWhile (fun c => c ≠ 'e' && c ≠ 'E')
  match cs.drop mant.length with
  | [] => parseMantissa mant
  | _ :: etail =>
      match parseMantissa mant, parseExponent etail with
      | some m, some e => some (m * (10 : Rat) ^ e)
      | _, _ => none

/-- Model of Python `float(s)`: optional surrounding whitespace, optional
sign, decimal mantissa, optional exponent; `none` models `ValueError`.
The value is the exact rational of the literal (see the header note). -/
def parsePyFloat (s : String) : Option Rat :=
  match pyStrip s.toList with
  | '+' :: rest => parsePyFloatCore rest
  | '-' :: rest => (parsePyFloatCore rest).map (fun q => -q)
  | cs => parsePyFloatCore cs

/-- Python `int(v)` on an arbitrary value: strings are parsed, bools and
ints convert exactly, floats truncate toward zero; `none` models the
`ValueError`/`TypeError` that the source catches and ignores. -/
def pyIntOf : JValue → Option JValue
  | .str s => (parsePyInt s).map JValue.int
  | .int n => some (.int n)
  | .bool b => some (.int (if b then 1 else 0))
  | .float q => some (.int (Int.tdiv q.num (q.den : Int)))
  | _ => none

/-- Python `float(v)` on an arbitrary value, mirroring `pyIntOf`. -/
def pyFloatOf : JValue → Option JValue
  | .str s => (parsePyFloat s).map JValue.float
  | .int n => some (.float (n : Rat))
  | .bool b => some (.float (if b then 1 else 0))
  | .float q => some (.float q)
  | _ => none

/-- Python `"default" in v` (the membership test of line 55): key test on a
dict, substring test on a string, element test on a list, `TypeError`
otherwise. -/
def pyContainsKey (needle : String) : JValue → Except PyErr Bool
  | .obj kvs => .ok (dictHasKey kvs needle)
  | .str s => .ok (decide (needle.toList <:+: s.toList))
  | .arr xs => .ok (decide (JValue.str needle ∈ xs))
  | _ => .error .typeError

/-- Python `v["default"]` (the subscript of line 56): dict lookup, raising
`KeyError` on a missing key and `TypeError` on non-dicts. -/
def pySubscript (v : JValue) (key : String) : Except PyErr JValue :=
  match v with
  | .obj kvs =>
      match dictGet kvs key with
      | some d => .ok d
      | none => .error .keyError
  | _ => .error .typeError

/-- Python `schema.get("properties", {})` followed by `.items()` (lines 52,
169, 175): `AttributeError` when the schema or its `properties` is not a
dict, the (possibly empty) property list otherwise. -/
def propertiesOf (schema : JValue) : Except PyErr JDict :=
  match schema with
  | .obj kvs =>
      match dictGet kvs "properties" with
      | none => .ok []
      | some (.obj props) => .ok props
      | some _ => .error .attributeError
  | _ => .error .attributeError

/-- The loop of `get_default_values_from_schema` (lines 54-56): for each
property whose schema contains `"default"`, copy the default verbatim. -/
def defaultsLoop : JDict → JDict → Except PyErr JDict
  | [], values => .ok values
  | (p, ps) :: rest, values =>
      match pyContainsKey "default" ps with
      | .error e => .error e
      | .ok true =>
          match pySubscript ps "default" with
          | .error e => .error e
          | .ok d => defaultsLoop rest (dictSet values p d)
      | .ok false => defaultsLoop rest values

/-- `get_default_values_from_schema(schema)` (demo_app.py lines 49-58). -/
def get_default_values_from_schema (schema : JValue) : Except PyErr JDict :=
  match propertiesOf schema with
  | .error e => .error e
  | .ok props => defaultsLoop props []

/-- The checkbox loop of `submit` (lines 169-172): every boolean-typed
property is set to whether its key is currently present in `config`. -/
def boolLoop : JDict → JDict → Except PyErr JDict
  | [], config => .ok config
  | (p, ps) :: rest, config =>
      match ps with
      | .obj kvs =>
          if dictGet kvs "type" = some (.str "boolean") then
            boolLoop rest (dictSet config p (.bool (dictHasKey config p)))
          else boolLoop rest config
      | _ => .error .attributeError

/-- The numeric loop of `submit` (lines 175-186): for each integer- or
number-typed property whose key is present, re-parse the value, keeping it
unchanged when `int`/`float` raises. -/
def numLoop : JDict → JDict → Except PyErr JDict
  | [], config => .ok config
  | (p, ps) :: rest, config =>
      if dictHasKey config p then
        match ps with
        | .obj kvs =>
            if dictGet kvs "type" = some (.str "integer") then
              match pyIntOf ((dictGet config p).getD .null) with
              | some r => numLoop rest (dictSet config p r)
              | none => numLoop rest config
            else if dictGet kvs "type" = some (.str "number") then
              match pyFloatOf ((dictGet config p).getD .null) with
              | some r => numLoop rest (dictSet config p r)
              | none => numLoop rest config
            else numLoop rest config
        | _ => .error .attributeError
      else numLoop rest config

/-- `config = dict(form_data)` (line 165): the raw form fields as a dict of
string values. -/
def strEntries (raw : List (String × String)) : JDict :=
  raw.map (fun p => (p.1, JValue.str p.2))

/-- The coercion core of the `submit` handler (demo_app.py lines 162-186):
`config = dict(form_data)`, then the checkbox loop, then the numeric loop.
The HTTP and rendering wrapper around this logic is out of scope. -/
def submit_coerce (schema : JValue) (raw : List (String × String)) : Except PyErr JDict :=
  let config := strEntries raw
  match propertiesOf schema with
  | .error e => .error e
  | .ok props =>
      match boolLoop props config with
      | .error e => .error e
      | .ok config2 => numLoop props config2

/-- Errors of `load_test_schema`. -/
inductive LoadErr where
  | fileNotFoundError : LoadErr
  | jsonDecodeError : LoadErr
  deriving DecidableEq, Repr

/-- `load_test_schema()` (demo_app.py lines 40-46), with the file system
(`Path.exists` / `open`+`read`) and `json.load` passed explicitly: raise
`FileNotFoundError` when the path does not resolve to a readable file, else
parse the content, `json.load` failure being a decode error. -/
def load_test_schema (fileContents : String → Option String)
    (jsonLoad : String → Option JValue) (schemaPath : String) : Except LoadErr JValue :=
  match fileContents schemaPath with
  | none => .error .fileNotFoundError
  | some content =>
      match jsonLoad content with
      | some v => .ok v
      | none => .error .jsonDecodeError

/-! ### Pure views of the three loops

Under the well-formedness condition actually met on the success path (every
property schema is a dict), each `Except`-valued loop equals a total fold;
the lemmas below establish this and then reason on the folds. -/

/-- `prop_schema.get("type")` of a dict property schema (`none` otherwise). -/
def propType : JValue → Option JValue
  | .obj kvs => dictGet kvs "type"
  | _ => none

/-- Whether a property schema declares `type == "boolean"`. -/
def isBoolProp (ps : JValue) : Bool :=
  decide (propType ps = some (JValue.str "boolean"))

/-- Whether a property schema declares `type == "integer"`. -/
def isIntProp (ps : JValue) : Bool :=
  decide (propType ps = some (JValue.str "integer"))

/-- Whether a property schema declares `type == "number"`. -/
def isNumProp (ps : JValue) : Bool :=
  decide (propType ps = some (JValue.str "number"))

/-- The `default` declared by a dict property schema (`none` otherwise). -/
def psDefault : JValue → Option JValue
  | .obj kvs => dictGet kvs "default"
  | _ => none

/-- Names of the boolean-typed properties of a property list. -/
def boolPropKeys (props : JDict) : List String :=
  (props.filter (fun pp => isBoolProp pp.2)).map (fun pp => pp.1)

/-- Pure view of `boolLoop` on dict-only property schemas. -/
def boolFold : JDict → JDict → JDict
  | [], config => config
  | (p, ps) :: rest, config =>
      if isBoolProp ps then boolFold rest (dictSet config p (.bool (dictHasKey config p)))
      else boolFold rest config

/-- One `try`-guarded numeric reassignment of `config[p]`. -/
def tryNum (f : JValue → Option JValue) (config : JDict) (p : String) : JDict :=
  match f ((dictGet config p).getD .null) with
  | some r => dictSet config p r
  | none => config

/-- Pure view of `numLoop` on dict-only property schemas. -/
def numFold : JDict → JDict → JDict
  | [], config => config
  | (p, ps) :: rest, config =>
      if dictHasKey config p then
        if isIntProp ps then numFold rest (tryNum pyIntOf config p)
        else if isNumProp ps then numFold rest (tryNum pyFloatOf config p)
        else numFold rest config
      else numFold rest config

/-- Pure view of `defaultsLoop` on dict-only property schemas. -/
def defaultsFold : JDict → JDict → JDict
  | [], values => values
  | (p, ps) :: rest, values =>
      match psDefault ps with
      | some d => defaultsFold rest (dictSet values p d)
      | none => defaultsFold rest values

/-! ### Lemmas about the dict primitives -/

theorem dictHasKey_iff_mem {α : Type} (d : List (String × α)) (k : String) :
    dictHasKey d k = true ↔ k ∈ dictKeys d := by
  induction d with
  | nil => simp [dictHasKey, dictKeys]
  | cons p d ih =>
      simp only [dictHasKey, dictKeys, List.map_cons, List.mem_cons, Bool.or_eq_true,
        decide_eq_true_eq]
      simp only [dictKeys] at ih
      rw [ih]
      constructor
      · rintro (h | h)
        · exact Or.inl h.symm
        · exact Or.inr h
      · rintro (h | h)
        · exact Or.inl h.symm
        · exact Or.inr h

theorem dictGet_isSome {α : Type} (d : List (String × α)) (k : String) :
    (dictGet d k).isSome = dictHasKey d k := by
  induction d with
  | nil => rfl
  | cons p d ih =>
      by_cases h : p.1 = k <;> simp [dictGet, dictHasKey, h, ih]

theorem dictGet_none_of_not_hasKey {α : Type} {d : List (String × α)} {k : String}
    (h : dictHasKey d k = false) : dictGet d k = none := by
  have hs := dictGet_isSome d k
  rw [h] at hs
  exact Option.not_isSome_iff_eq_none.mp (by simp [hs])

theorem dictGet_some_hasKey {α : Type} {d : List (String × α)} {k : String} {v : α}
    (h : dictGet d k = some v) : dictHasKey d k = true := by
  have hs := dictGet_isSome d k
  rw [h] at hs
  exact hs.symm

theorem dictGet_dictSet_self {α : Type} (d : List (String × α)) (k : String) (v : α) :
    dictGet (dictSet d k v) k = some v := by
  induction d with
  | nil => simp [dictSet, dictGet]
  | cons p d ih =>
      by_cases h : p.1 = k <;> simp [dictSet, dictGet, h, ih]

theorem dictGet_dictSet_ne {α : Type} (d : List (String × α)) (k k2 : String) (v : α)
    (hne : k2 ≠ k) : dictGet (dictSet d k v) k2 = dictGet d k2 := by
  induction d with
  | nil => simp [dictSet, dictGet, Ne.symm hne]
  | cons p d ih =>
      by_cases h : p.1 = k
      · simp [dictSet, dictGet, h, Ne.symm hne]
      · by_cases h2 : p.1 = k2
        · have hne2 : ¬(k2 = k) := hne
          simp only [dictSet, dictGet, h, h2, if_neg hne2, if_false, if_neg h]
          simp [dictGet, h2]
        · simp [dictSet, dictGet, h, h2, ih]

theorem dictHasKey_dictSet {α : Type} (d : List (String × α)) (k k2 : String) (v : α) :
    dictHasKey (dictSet d k v) k2 = true ↔ (dictHasKey d k2 = true ∨ k2 = k) := by
  induction d with
  | nil =>
      by_cases hk : k = k2
      · simp [dictSet, dictHasKey, hk]
      · simp [dictSet, dictHasKey, hk, Ne.symm hk]
  | cons p d ih =>
      by_cases h : p.1 = k
      · have hset : dictSet (p :: d) k v = (k, v) :: d := by simp [dictSet, h]
        rw [hset]
        simp only [dictHasKey, Bool.or_eq_true, decide_eq_true_eq]
        rw [h]
        constructor
        · exact Or.inl
        · rintro ((h1 | h1) | h1)
          · exact Or.inl h1
          · exact Or.inr h1
          · exact Or.inl h1.symm
      · have hset : dictSet (p :: d) k v = p :: dictSet d k v := by simp [dictSet, h]
        rw [hset]
        simp only [dictHasKey, Bool.or_eq_true, decide_eq_true_eq]
        rw [ih]
        tauto

theorem dictHasKey_dictSet_of_hasKey {α : Type} {d : List (String × α)} {k : String} {v : α}
    (h : dictHasKey d k = true) (k2 : String) :
    dictHasKey (dictSet d k v) k2 = dictHasKey d k2 := by
  cases hb : dictHasKey d k2 with
  | true => exact (dictHasKey_dictSet d k k2 v).mpr (Or.inl hb)
  | false =>
      cases hb2 : dictHasKey (dictSet d k v) k2 with
      | false => rfl
      | true =>
          rcases (dictHasKey_dictSet d k k2 v).mp hb2 with h1 | h1
          · rw [hb] at h1; cases h1
          · subst h1; rw [h] at hb; cases hb

/-! ### The loops equal their pure folds on dict-only property schemas -/

theorem isObj_obj {v : JValue} (h : v.isObj = true) : ∃ kvs, v = JValue.obj kvs := by
  cases v <;> first | exact ⟨_, rfl⟩ | simp [JValue.isObj] at h

theorem dictGet_strEntries (raw : List (String × String)) (k : String) :
    dictGet (strEntries raw) k = (dictGet raw k).map JValue.str := by
  induction raw with
  | nil => rfl
  | cons p raw ih =>
      by_cases h : p.1 = k
      · simp [strEntries, dictGet, h]
      · simp only [strEntries, List.map_cons, dictGet, h, if_false, if_neg h]
        simpa [strEntries] using ih

theorem dictHasKey_strEntries (raw : List (String × String)) (k : String) :
    dictHasKey (strEntries raw) k = dictHasKey raw k := by
  induction raw with
  | nil => rfl
  | cons p raw ih =>
      by_cases h : p.1 = k
      · simp [strEntries, dictHasKey, h]
      · simp only [strEntries, List.map_cons, dictHasKey, h]
        simpa [strEntries, h] using ih

theorem boolLoop_eq_fold (props : JDict) :
    ∀ config, (∀ pp ∈ props, (pp.2).isObj = true) →
      boolLoop props config = .ok (boolFold props config) := by
  induction props with
  | nil => intro config _; rfl
  | cons pp rest ih =>
      intro config h
      obtain ⟨p, ps⟩ := pp
      have hobj := h (p, ps) (List.mem_cons_self _ _)
      have hrest := fun pp hm => h pp (List.mem_cons_of_mem _ hm)
      obtain ⟨kvs, rfl⟩ := isObj_obj hobj
      by_cases hb : dictGet kvs "type" = some (JValue.str "boolean")
      · simp [boolLoop, boolFold, isBoolProp, propType, hb, ih _ hrest]
      · simp [boolLoop, boolFold, isBoolProp, propType, hb, ih _ hrest]

theorem numLoop_eq_fold (props : JDict) :
    ∀ config, (∀ pp ∈ props, (pp.2).isObj = true) →
      numLoop props config = .ok (numFold props config) := by
  induction props with
  | nil => intro config _; rfl
  | cons pp rest ih =>
      intro config h
      obtain ⟨p, ps⟩ := pp
      have hobj := h (p, ps) (List.mem_cons_self _ _)
      have hrest := fun pp hm => h pp (List.mem_cons_of_mem _ hm)
      obtain ⟨kvs, rfl⟩ := isObj_obj hobj
      by_cases hk : dictHasKey config p = true
      · by_cases hi : dictGet kvs "type" = some (JValue.str "integer")
        · cases hpi : pyIntOf ((dictGet config p).getD .null) with
          | some r =>
              simp [numLoop, numFold, isIntProp, propType, hk, hi, tryNum, hpi, ih _ hrest]
          | none =>
              simp [numLoop, numFold, isIntProp, propType, hk, hi, tryNum, hpi, ih _ hrest]
        · by_cases hn : dictGet kvs "type" = some (JValue.str "number")
          · cases hpf : pyFloatOf ((dictGet config p).getD .null) with
            | some r =>
                simp [numLoop, numFold, isIntProp, isNumProp, propType, hk, hi, hn, tryNum,
                  hpf, ih _ hrest]
            | none =>
                simp [numLoop, numFold, isIntProp, isNumProp, propType, hk, hi, hn, tryNum,
                  hpf, ih _ hrest]
          · simp [numLoop, numFold, isIntProp, isNumProp, propType, hk, hi, hn, ih _ hrest]
      · simp [numLoop, numFold, hk, ih _ hrest]

theorem defaultsLoop_eq_fold (props : JDict) :
    ∀ values, (∀ pp ∈ props, (pp.2).isObj = true) →
      defaultsLoop props values = .ok (defaultsFold props values) := by
  induction props with
  | nil => intro values _; rfl
  | cons pp rest ih =>
      intro values h
      obtain ⟨p, ps⟩ := pp
      have hobj := h (p, ps) (List.mem_cons_self _ _)
      have hrest := fun pp hm => h pp (List.mem_cons_of_mem _ hm)
      obtain ⟨kvs, rfl⟩ := isObj_obj hobj
      cases hd : dictHasKey kvs "default" with
      | true =>
          obtain ⟨d, hdg⟩ : ∃ d, dictGet kvs "default" = some d := by
            have hs := dictGet_isSome kvs "default"
            rw [hd] at hs
            exact Option.isSome_iff_exists.mp hs
          simp [defaultsLoop, defaultsFold, pyContainsKey, pySubscript, psDefault, hd, hdg,
            ih _ hrest]
      | false =>
          have hdg : dictGet kvs "default" = none := dictGet_none_of_not_hasKey hd
          simp [defaultsLoop, defaultsFold, pyContainsKey, pySubscript, psDefault, hd, hdg,
            ih _ hrest]

/-! ### Small step lemmas for the folds -/

theorem dictHasKey_dictSet_ne {α : Type} (d : List (String × α)) (k k2 : String) (v : α)
    (hne : k2 ≠ k) : dictHasKey (dictSet d k v) k2 = dictHasKey d k2 := by
  cases hb : dictHasKey d k2 with
  | true => exact (dictHasKey_dictSet d k k2 v).mpr (Or.inl hb)
  | false =>
      cases hb2 : dictHasKey (dictSet d k v) k2 with
      | false => rfl
      | true =>
          rcases (dictHasKey_dictSet d k k2 v).mp hb2 with h1 | h1
          · rw [hb] at h1; cases h1
          · exact absurd h1 hne

theorem mem_dictKeys_of_mem {α : Type} {k : String} {ps : α} {d : List (String × α)}
    (h : (k, ps) ∈ d) : k ∈ dictKeys d :=
  List.mem_map.mpr ⟨(k, ps), h, rfl⟩

theorem nodup_dictKeys_cons {α : Type} {p : String × α} {d : List (String × α)}
    (h : (dictKeys (p :: d)).Nodup) : p.1 ∉ dictKeys d ∧ (dictKeys d).Nodup := by
  rw [dictKeys, List.map_cons, List.nodup_cons] at h
  exact h

theorem boolPropKeys_cons_pos {p : String} {ps : JValue} {rest : JDict}
    (hb : isBoolProp ps = true) :
    boolPropKeys ((p, ps) :: rest) = p :: boolPropKeys rest := by
  simp [boolPropKeys, List.filter_cons, hb]

theorem boolPropKeys_cons_neg {p : String} {ps : JValue} {rest : JDict}
    (hb : isBoolProp ps = false) :
    boolPropKeys ((p, ps) :: rest) = boolPropKeys rest := by
  simp [boolPropKeys, List.filter_cons, hb]

theorem boolFold_cons_pos {p : String} {ps : JValue} {rest : JDict} {config : JDict}
    (hb : isBoolProp ps = true) :
    boolFold ((p, ps) :: rest) config
      = boolFold rest (dictSet config p (.bool (dictHasKey config p))) := by
  simp [boolFold, hb]

theorem boolFold_cons_neg {p : String} {ps : JValue} {rest : JDict} {config : JDict}
    (hb : isBoolProp ps = false) :
    boolFold ((p, ps) :: rest) config = boolFold rest config := by
  simp [boolFold, hb]

theorem numFold_cons_absent {p : String} {ps : JValue} {rest : JDict} {config : JDict}
    (hk : dictHasKey config p = false) :
    numFold ((p, ps) :: rest) config = numFold rest config := by
  simp [numFold, hk]

theorem numFold_cons_int {p : String} {ps : JValue} {rest : JDict} {config : JDict}
    (hk : dictHasKey config p = true) (hi : isIntProp ps = true) :
    numFold ((p, ps) :: rest) config = numFold rest (tryNum pyIntOf config p) := by
  simp [numFold, hk, hi]

theorem numFold_cons_num {p : String} {ps : JValue} {rest : JDict} {config : JDict}
    (hk : dictHasKey config p = true) (hi : isIntProp ps = false) (hn : isNumProp ps = true) :
    numFold ((p, ps) :: rest) config = numFold rest (tryNum pyFloatOf config p) := by
  simp [numFold, hk, hi, hn]

theorem numFold_cons_other {p : String} {ps : JValue} {rest : JDict} {config : JDict}
    (hi : isIntProp ps = false) (hn : isNumProp ps = false) :
    numFold ((p, ps) :: rest) config = numFold rest config := by
  cases hk : dictHasKey config p <;> simp [numFold, hk, hi, hn]

theorem defaultsFold_cons_some {p : String} {ps : JValue} {rest : JDict} {values : JDict}
    {d : JValue} (hd : psDefault ps = some d) :
    defaultsFold ((p, ps) :: rest) values = defaultsFold rest (dictSet values p d) := by
  simp [defaultsFold, hd]

theorem defaultsFold_cons_none {p : String} {ps : JValue} {rest : JDict} {values : JDict}
    (hd : psDefault ps = none) :
    defaultsFold ((p, ps) :: rest) values = defaultsFold rest values := by
  simp [defaultsFold, hd]

theorem tryNum_hasKey {config : JDict} {p : String} (f : JValue → Option JValue)
    (hk : dictHasKey config p = true) (k : String) :
    dictHasKey (tryNum f config p) k = dictHasKey config k := by
  unfold tryNum
  cases f ((dictGet config p).getD .null) with
  | some r => exact dictHasKey_dictSet_of_hasKey hk k
  | none => rfl

theorem tryNum_get_ne {config : JDict} {p k : String} (f : JValue → Option JValue)
    (hne : k ≠ p) : dictGet (tryNum f config p) k = dictGet config k := by
  unfold tryNum
  cases f ((dictGet config p).getD .null) with
  | some r => exact dictGet_dictSet_ne config p k r hne
  | none => rfl

/-! ### The declared types exclude one another -/

theorem isIntProp_false_of_bool {ps : JValue} (h : isBoolProp ps = true) :
    isIntProp ps = false := by
  simp only [isBoolProp, decide_eq_true_eq] at h
  simp only [isIntProp, h]
  decide

theorem isNumProp_false_of_bool {ps : JValue} (h : isBoolProp ps = true) :
    isNumProp ps = false := by
  simp only [isBoolProp, decide_eq_true_eq] at h
  simp only [isNumProp, h]
  decide

theorem isBoolProp_false_of_int {ps : JValue} (h : isIntProp ps = true) :
    isBoolProp ps = false := by
  simp only [isIntProp, decide_eq_true_eq] at h
  simp only [isBoolProp, h]
  decide

theorem isBoolProp_false_of_num {ps : JValue} (h : isNumProp ps = true) :
    isBoolProp ps = false := by
  simp only [isNumProp, decide_eq_true_eq] at h
  simp only [isBoolProp, h]
  decide

theorem isIntProp_false_of_num {ps : JValue} (h : isNumProp ps = true) :
    isIntProp ps = false := by
  simp only [isNumProp, decide_eq_true_eq] at h
  simp only [isIntProp, h]
  decide

/-! ### Characterisation of the checkbox pass -/

theorem boolFold_hasKey (props : JDict) :
    ∀ config k, dictHasKey (boolFold props config) k = true ↔
      (dictHasKey config k = true ∨ k ∈ boolPropKeys props) := by
  induction props with
  | nil => intro config k; simp [boolFold, boolPropKeys]
  | cons pp rest ih =>
      intro config k
      obtain ⟨p, ps⟩ := pp
      cases hb : isBoolProp ps with
      | true =>
          rw [boolFold_cons_pos hb, ih, boolPropKeys_cons_pos hb, List.mem_cons,
            dictHasKey_dictSet]
          tauto
      | false =>
          rw [boolFold_cons_neg hb, ih, boolPropKeys_cons_neg hb]

theorem boolFold_get_not_mem (props : JDict) :
    ∀ config k, k ∉ dictKeys props →
      dictGet (boolFold props config) k = dictGet config k := by
  induction props with
  | nil => intro config k _; rfl
  | cons pp rest ih =>
      intro config k hk
      obtain ⟨p, ps⟩ := pp
      rw [dictKeys, List.map_cons, List.mem_cons] at hk
      push_neg at hk
      obtain ⟨hkp, hkrest⟩ := hk
      cases hb : isBoolProp ps with
      | true =>
          rw [boolFold_cons_pos hb, ih _ _ hkrest]
          exact dictGet_dictSet_ne _ _ _ _ hkp
      | false => rw [boolFold_cons_neg hb, ih _ _ hkrest]

theorem boolFold_hasKey_not_mem (props : JDict) :
    ∀ config k, k ∉ dictKeys props →
      dictHasKey (boolFold props config) k = dictHasKey config k := by
  induction props with
  | nil => intro config k _; rfl
  | cons pp rest ih =>
      intro config k hk
      obtain ⟨p, ps⟩ := pp
      rw [dictKeys, List.map_cons, List.mem_cons] at hk
      push_neg at hk
      obtain ⟨hkp, hkrest⟩ := hk
      cases hb : isBoolProp ps with
      | true =>
          rw [boolFold_cons_pos hb, ih _ _ hkrest]
          exact dictHasKey_dictSet_ne _ _ _ _ hkp
      | false => rw [boolFold_cons_neg hb, ih _ _ hkrest]

theorem boolFold_get_of_bool {props : JDict} {k : String} {ps : JValue}
    (hnd : (dictKeys props).Nodup) (hmem : (k, ps) ∈ props) (hb : isBoolProp ps = true) :
    ∀ config, dictGet (boolFold props config) k = some (.bool (dictHasKey config k)) := by
  induction props with
  | nil => cases hmem
  | cons pp rest ih =>
      intro config
      obtain ⟨p, ps'⟩ := pp
      obtain ⟨hpk, hndr⟩ := nodup_dictKeys_cons hnd
      rcases List.mem_cons.mp hmem with heq | hmem'
      · injection heq with h1 h2
        subst h1
        subst h2
        rw [boolFold_cons_pos hb,
          boolFold_get_not_mem rest _ _ hpk,
          dictGet_dictSet_self]
      · have hkrest : k ∈ dictKeys rest := mem_dictKeys_of_mem hmem'
        have hpkne : p ≠ k := fun he => hpk (he ▸ hkrest)
        cases hb' : isBoolProp ps' with
        | true =>
            rw [boolFold_cons_pos hb', ih hndr hmem' _,
              dictHasKey_dictSet_ne _ _ _ _ (Ne.symm hpkne)]
        | false => rw [boolFold_cons_neg hb', ih hndr hmem' _]

theorem boolFold_get_of_not_bool {props : JDict} {k : String} {ps : JValue}
    (hnd : (dictKeys props).Nodup) (hmem : (k, ps) ∈ props) (hb : isBoolProp ps = false) :
    ∀ config, dictGet (boolFold props config) k = dictGet config k := by
  induction props with
  | nil => cases hmem
  | cons pp rest ih =>
      intro config
      obtain ⟨p, ps'⟩ := pp
      obtain ⟨hpk, hndr⟩ := nodup_dictKeys_cons hnd
      rcases List.mem_cons.mp hmem with heq | hmem'
      · injection heq with h1 h2
        subst h1
        subst h2
        rw [boolFold_cons_neg hb, boolFold_get_not_mem rest _ _ hpk]
      · have hkrest : k ∈ dictKeys rest := mem_dictKeys_of_mem hmem'
        have hpkne : p ≠ k := fun he => hpk (he ▸ hkrest)
        cases hb' : isBoolProp ps' with
        | true =>
            rw [boolFold_cons_pos hb', ih hndr hmem' _,
              dictGet_dictSet_ne _ _ _ _ (Ne.symm hpkne)]
        | false => rw [boolFold_cons_neg hb', ih hndr hmem' _]

/-! ### Characterisation of the numeric pass -/

theorem numFold_hasKey (props : JDict) :
    ∀ config k, dictHasKey (numFold props config) k = dictHasKey config k := by
  induction props with
  | nil => intro config k; rfl
  | cons pp rest ih =>
      intro config k
      obtain ⟨p, ps⟩ := pp
      cases hk : dictHasKey config p with
      | false => rw [numFold_cons_absent hk, ih]
      | true =>
          cases hi : isIntProp ps with
          | true => rw [numFold_cons_int hk hi, ih, tryNum_hasKey _ hk]
          | false =>
              cases hn : isNumProp ps with
              | true => rw [numFold_cons_num hk hi hn, ih, tryNum_hasKey _ hk]
              | false => rw [numFold_cons_other hi hn, ih]

theorem numFold_cons_get_ne {p k : String} {ps' : JValue} {rest config : JDict}
    (hne : k ≠ p) :
    ∃ c2, numFold ((p, ps') :: rest) config = numFold rest c2
      ∧ dictGet c2 k = dictGet config k := by
  cases hk : dictHasKey config p with
  | false => exact ⟨config, numFold_cons_absent hk, rfl⟩
  | true =>
      cases hi : isIntProp ps' with
      | true => exact ⟨tryNum pyIntOf config p, numFold_cons_int hk hi, tryNum_get_ne _ hne⟩
      | false =>
          cases hn : isNumProp ps' with
          | true =>
              exact ⟨tryNum pyFloatOf config p, numFold_cons_num hk hi hn, tryNum_get_ne _ hne⟩
          | false => exact ⟨config, numFold_cons_other hi hn, rfl⟩

theorem numFold_get_not_mem (props : JDict) :
    ∀ config k, k ∉ dictKeys props →
      dictGet (numFold props config) k = dictGet config k := by
  induction props with
  | nil => intro config k _; rfl
  | cons pp rest ih =>
      intro config k hk
      obtain ⟨p, ps⟩ := pp
      rw [dictKeys, List.map_cons, List.mem_cons] at hk
      push_neg at hk
      obtain ⟨hkp, hkrest⟩ := hk
      obtain ⟨c2, he, hg⟩ := numFold_cons_get_ne hkp
      rw [he, ih _ _ hkrest, hg]

theorem numFold_get_int {props : JDict} {k : String} {ps : JValue}
    (hnd : (dictKeys props).Nodup) (hmem : (k, ps) ∈ props) (hi : isIntProp ps = true) :
    ∀ config v, dictGet config k = some v →
      dictGet (numFold props config) k = some ((pyIntOf v).getD v) := by
  induction props with
  | nil => cases hmem
  | cons pp rest ih =>
      intro config v hv
      obtain ⟨p, ps'⟩ := pp
      obtain ⟨hpk, hndr⟩ := nodup_dictKeys_cons hnd
      rcases List.mem_cons.mp hmem with heq | hmem'
      · injection heq with h1 h2
        subst h1
        subst h2
        have hk : dictHasKey config k = true := dictGet_some_hasKey hv
        rw [numFold_cons_int hk hi, numFold_get_not_mem rest _ _ hpk]
        unfold tryNum
        rw [hv]
        simp only [Option.getD_some]
        cases hpv : pyIntOf v with
        | some r => simp [dictGet_dictSet_self]
        | none => simp [hv]
      · have hkrest : k ∈ dictKeys rest := mem_dictKeys_of_mem hmem'
        have hpkne : k ≠ p := fun he => hpk (he ▸ hkrest)
        obtain ⟨c2, he, hg⟩ := numFold_cons_get_ne hpkne
        rw [he]
        exact ih hndr hmem' c2 v (by rw [hg]; exact hv)

theorem numFold_get_num {props : JDict} {k : String} {ps : JValue}
    (hnd : (dictKeys props).Nodup) (hmem : (k, ps) ∈ props) (hn : isNumProp ps = true) :
    ∀ config v, dictGet config k = some v →
      dictGet (numFold props config) k = some ((pyFloatOf v).getD v) := by
  induction props with
  | nil => cases hmem
  | cons pp rest ih =>
      intro config v hv
      obtain ⟨p, ps'⟩ := pp
      obtain ⟨hpk, hndr⟩ := nodup_dictKeys_cons hnd
      rcases List.mem_cons.mp hmem with heq | hmem'
      · injection heq with h1 h2
        subst h1
        subst h2
        have hk : dictHasKey config k = true := dictGet_some_hasKey hv
        rw [numFold_cons_num hk (isIntProp_false_of_num hn) hn,
          numFold_get_not_mem rest _ _ hpk]
        unfold tryNum
        rw [hv]
        simp only [Option.getD_some]
        cases hpv : pyFloatOf v with
        | some r => simp [dictGet_dictSet_self]
        | none => simp [hv]
      · have hkrest : k ∈ dictKeys rest := mem_dictKeys_of_mem hmem'
        have hpkne : k ≠ p := fun he => hpk (he ▸ hkrest)
        obtain ⟨c2, he, hg⟩ := numFold_cons_get_ne hpkne
        rw [he]
        exact ih hndr hmem' c2 v (by rw [hg]; exact hv)

theorem numFold_get_other {props : JDict} {k : String} {ps : JValue}
    (hnd : (dictKeys props).Nodup) (hmem : (k, ps) ∈ props)
    (hi : isIntProp ps = false) (hn : isNumProp ps = false) :
    ∀ config, dictGet (numFold props config) k = dictGet config k := by
  induction props with
  | nil => cases hmem
  | cons pp rest ih =>
      intro config
      obtain ⟨p, ps'⟩ := pp
      obtain ⟨hpk, hndr⟩ := nodup_dictKeys_cons hnd
      rcases List.mem_cons.mp hmem with heq | hmem'
      · injection heq with h1 h2
        subst h1
        subst h2
        rw [numFold_cons_other hi hn, numFold_get_not_mem rest _ _ hpk]
      · have hkrest : k ∈ dictKeys rest := mem_dictKeys_of_mem hmem'
        have hpkne : k ≠ p := fun he => hpk (he ▸ hkrest)
        obtain ⟨c2, he, hg⟩ := numFold_cons_get_ne hpkne
        rw [he, ih hndr hmem' c2, hg]

/-! ### Characterisation of the defaults extraction -/

theorem defaultsFold_hasKey (props : JDict) :
    ∀ values k, dictHasKey (defaultsFold props values) k = true ↔
      (dictHasKey values k = true ∨ ∃ ps d, (k, ps) ∈ props ∧ psDefault ps = some d) := by
  induction props with
  | nil => intro values k; simp [defaultsFold]
  | cons pp rest ih =>
      intro values k
      obtain ⟨p, ps⟩ := pp
      cases hd : psDefault ps with
      | some d =>
          rw [defaultsFold_cons_some hd, ih, dictHasKey_dictSet]
          constructor
          · rintro ((hv | hkp) | ⟨ps', d', hm, hpd⟩)
            · exact Or.inl hv
            · subst hkp
              exact Or.inr ⟨ps, d, List.mem_cons_self _ _, hd⟩
            · exact Or.inr ⟨ps', d', List.mem_cons_of_mem _ hm, hpd⟩
          · rintro (hv | ⟨ps', d', hm, hpd⟩)
            · exact Or.inl (Or.inl hv)
            · rcases List.mem_cons.mp hm with heq | hm'
              · injection heq with h1 h2
                exact Or.inl (Or.inr h1)
              · exact Or.inr ⟨ps', d', hm', hpd⟩
      | none =>
          rw [defaultsFold_cons_none hd, ih]
          constructor
          · rintro (hv | ⟨ps', d', hm, hpd⟩)
            · exact Or.inl hv
            · exact Or.inr ⟨ps', d', List.mem_cons_of_mem _ hm, hpd⟩
          · rintro (hv | ⟨ps', d', hm, hpd⟩)
            · exact Or.inl hv
            · rcases List.mem_cons.mp hm with heq | hm'
              · injection heq with h1 h2
                subst h2
                rw [hd] at hpd
                cases hpd
              · exact Or.inr ⟨ps', d', hm', hpd⟩

theorem defaultsFold_get_not_mem (props : JDict) :
    ∀ values k, k ∉ dictKeys props →
      dictGet (defaultsFold props values) k = dictGet values k := by
  induction props with
  | nil => intro values k _; rfl
  | cons pp rest ih =>
      intro values k hk
      obtain ⟨p, ps⟩ := pp
      rw [dictKeys, List.map_cons, List.mem_cons] at hk
      push_neg at hk
      obtain ⟨hkp, hkrest⟩ := hk
      cases hd : psDefault ps with
      | some d =>
          rw [defaultsFold_cons_some hd, ih _ _ hkrest]
          exact dictGet_dictSet_ne _ _ _ _ hkp
      | none => rw [defaultsFold_cons_none hd, ih _ _ hkrest]

theorem defaultsFold_get {props : JDict} {k : String} {ps d : JValue}
    (hnd : (dictKeys props).Nodup) (hmem : (k, ps) ∈ props) (hd : psDefault ps = some d) :
    ∀ values, dictGet (defaultsFold props values) k = some d := by
  induction props with
  | nil => cases hmem
  | cons pp rest ih =>
      intro values
      obtain ⟨p, ps'⟩ := pp
      obtain ⟨hpk, hndr⟩ := nodup_dictKeys_cons hnd
      rcases List.mem_cons.mp hmem with heq | hmem'
      · injection heq with h1 h2
        subst h1
        subst h2
        rw [defaultsFold_cons_some hd, defaultsFold_get_not_mem rest _ _ hpk,
          dictGet_dictSet_self]
      · have hkrest : k ∈ dictKeys rest := mem_dictKeys_of_mem hmem'
        have hpkne : k ≠ p := fun he => hpk (he ▸ hkrest)
        cases hd' : psDefault ps' with
        | some d' => rw [defaultsFold_cons_some hd', ih hndr hmem' _]
        | none => rw [defaultsFold_cons_none hd', ih hndr hmem' _]

/-! ### Composed descriptions of the two operations -/

theorem submit_coerce_eq {schema : JValue} {props : JDict} {raw : List (String × String)}
    (hp : propertiesOf schema = Except.ok props)
    (hobj : ∀ pp ∈ props, (pp.2).isObj = true) :
    submit_coerce schema raw = Except.ok (numFold props (boolFold props (strEntries raw))) := by
  have hb := fun config => boolLoop_eq_fold props config hobj
  have hn := fun config => numLoop_eq_fold props config hobj
  simp only [submit_coerce, hp, hb, hn]

theorem get_default_values_eq {schema : JValue} {props : JDict}
    (hp : propertiesOf schema = Except.ok props)
    (hobj : ∀ pp ∈ props, (pp.2).isObj = true) :
    get_default_values_from_schema schema = Except.ok (defaultsFold props []) := by
  simp only [get_default_values_from_schema, hp]
  exact defaultsLoop_eq_fold props [] hobj

theorem mem_boolPropKeys {props : JDict} {b : String} {ps : JValue}
    (hmem : (b, ps) ∈ props) (hb : isBoolProp ps = true) : b ∈ boolPropKeys props :=
  List.mem_map.mpr ⟨(b, ps), List.mem_filter.mpr ⟨hmem, hb⟩, rfl⟩

/-! ### The claims -/

/-- Claim C1: for every schema whose `properties` is a mapping (of mapping
property schemas) and every raw form-data mapping, coercion succeeds and the
key set of the result is exactly the key set of the raw data united with the
boolean-typed property names of the schema: every raw key appears, every
boolean-typed property appears, and no other key appears. -/
theorem claim_C1_keyset (schema : JValue) (props : JDict) (raw : List (String × String))
    (hp : propertiesOf schema = Except.ok props)
    (hobj : ∀ pp ∈ props, (pp.2).isObj = true) :
    ∃ conf, submit_coerce schema raw = Except.ok conf ∧
      ∀ k, (dictHasKey conf k = true ↔
        (dictHasKey raw k = true ∨ k ∈ boolPropKeys props)) := by
  refine ⟨_, submit_coerce_eq hp hobj, ?_⟩
  intro k
  rw [numFold_hasKey, boolFold_hasKey, dictHasKey_strEntries]

/-- Concrete instance of C1: one boolean property, one unknown raw key. -/
theorem claim_C1_witness :
    ∃ conf, submit_coerce
        (JValue.obj [("properties", JValue.obj [("b", JValue.obj [("type", JValue.str "boolean")])])])
        [("x", "1")] = Except.ok conf ∧
      ∀ k, (dictHasKey conf k = true ↔
        (dictHasKey [("x", "1")] k = true
          ∨ k ∈ boolPropKeys [("b", JValue.obj [("type", JValue.str "boolean")])])) :=
  claim_C1_keyset _ _ _ rfl (by decide)

/-- Claim C2: a boolean-typed property `b` of the schema is always present in
the coerced result, with value `true` exactly when `b` is a key of the raw
data, whatever the raw string value was (the raw value is never read). -/
theorem claim_C2_boolean (schema : JValue) (props : JDict) (raw : List (String × String))
    (b : String) (ps : JValue)
    (hp : propertiesOf schema = Except.ok props)
    (hobj : ∀ pp ∈ props, (pp.2).isObj = true)
    (hnd : (dictKeys props).Nodup)
    (hmem : (b, ps) ∈ props) (hb : isBoolProp ps = true) :
    ∃ conf, submit_coerce schema raw = Except.ok conf ∧
      dictHasKey conf b = true ∧
      dictGet conf b = some (JValue.bool (dictHasKey raw b)) := by
  refine ⟨_, submit_coerce_eq hp hobj, ?_, ?_⟩
  · rw [numFold_hasKey, boolFold_hasKey]
    exact Or.inr (mem_boolPropKeys hmem hb)
  · rw [numFold_get_other hnd hmem (isIntProp_false_of_bool hb) (isNumProp_false_of_bool hb) _,
      boolFold_get_of_bool hnd hmem hb _, dictHasKey_strEntries]

/-- Concrete instance of C2: with empty raw data the checkbox comes out
`false`; with the key present (raw value `"on"`) it comes out `true`. -/
theorem claim_C2_witness :
    (∃ conf, submit_coerce
        (JValue.obj [("properties", JValue.obj [("b", JValue.obj [("type", JValue.str "boolean")])])])
        [] = Except.ok conf ∧
      dictHasKey conf "b" = true ∧
      dictGet conf "b" = some (JValue.bool (dictHasKey ([] : List (String × String)) "b")))
    ∧ (∃ conf, submit_coerce
        (JValue.obj [("properties", JValue.obj [("b", JValue.obj [("type", JValue.str "boolean")])])])
        [("b", "on")] = Except.ok conf ∧
      dictHasKey conf "b" = true ∧
      dictGet conf "b" = some (JValue.bool (dictHasKey [("b", "on")] "b"))) :=
  ⟨claim_C2_boolean _ _ _ "b" (JValue.obj [("type", JValue.str "boolean")])
      rfl (by decide) (by decide) (by decide) (by decide),
   claim_C2_boolean _ _ _ "b" (JValue.obj [("type", JValue.str "boolean")])
      rfl (by decide) (by decide) (by decide) (by decide)⟩

/-- Claim C3: for an integer-typed property present in the raw data, the
result holds the parsed integer when Python `int()` succeeds on the raw
string, and the raw string unchanged when it fails; the same with `float()`
for a number-typed property.  The operation never fails over this. -/
theorem claim_C3_numeric (schema : JValue) (props : JDict) (raw : List (String × String))
    (p : String) (ps : JValue) (v : String)
    (hp : propertiesOf schema = Except.ok props)
    (hobj : ∀ pp ∈ props, (pp.2).isObj = true)
    (hnd : (dictKeys props).Nodup)
    (hmem : (p, ps) ∈ props) (hv : dictGet raw p = some v) :
    ∃ conf, submit_coerce schema raw = Except.ok conf ∧
      (isIntProp ps = true →
        dictGet conf p = some (match parsePyInt v with
          | some n => JValue.int n
          | none => JValue.str v)) ∧
      (isNumProp ps = true →
        dictGet conf p = some (match parsePyFloat v with
          | some q => JValue.float q
          | none => JValue.str v)) := by
  have h0 : dictGet (strEntries raw) p = some (.str v) := by
    rw [dictGet_strEntries, hv]
    rfl
  refine ⟨_, submit_coerce_eq hp hobj, ?_, ?_⟩
  · intro hi
    have h1 : dictGet (boolFold props (strEntries raw)) p = some (.str v) := by
      rw [boolFold_get_of_not_bool hnd hmem (isBoolProp_false_of_int hi) _, h0]
    rw [numFold_get_int hnd hmem hi _ _ h1]
    simp only [pyIntOf]
    cases hpv : parsePyInt v <;> simp [hpv]
  · intro hn
    have h1 : dictGet (boolFold props (strEntries raw)) p = some (.str v) := by
      rw [boolFold_get_of_not_bool hnd hmem (isBoolProp_false_of_num hn) _, h0]
    rw [numFold_get_num hnd hmem hn _ _ h1]
    simp only [pyFloatOf]
    cases hpv : parsePyFloat v <;> simp [hpv]

/-- Concrete instances of C3: `"42"` parses for an integer property, `"abc"`
does not and stays a string. -/
theorem claim_C3_witness :
    (∃ conf, submit_coerce
        (JValue.obj [("properties", JValue.obj [("n", JValue.obj [("type", JValue.str "integer")])])])
        [("n", "42")] = Except.ok conf ∧
      (isIntProp (JValue.obj [("type", JValue.str "integer")]) = true →
        dictGet conf "n" = some (match parsePyInt "42" with
          | some n => JValue.int n
          | none => JValue.str "42")) ∧
      (isNumProp (JValue.obj [("type", JValue.str "integer")]) = true →
        dictGet conf "n" = some (match parsePyFloat "42" with
          | some q => JValue.float q
          | none => JValue.str "42")))
    ∧ (∃ conf, submit_coerce
        (JValue.obj [("properties", JValue.obj [("n", JValue.obj [("type", JValue.str "integer")])])])
        [("n", "abc")] = Except.ok conf ∧
      (isIntProp (JValue.obj [("type", JValue.str "integer")]) = true →
        dictGet conf "n" = some (match parsePyInt "abc" with
          | some n => JValue.int n
          | none => JValue.str "abc")) ∧
      (isNumProp (JValue.obj [("type", JValue.str "integer")]) = true →
        dictGet conf "n" = some (match parsePyFloat "abc" with
          | some q => JValue.float q
          | none => JValue.str "abc"))) :=
  ⟨claim_C3_numeric _ _ _ "n" (JValue.obj [("type", JValue.str "integer")]) "42"
      rfl (by decide) (by decide) (by decide) rfl,
   claim_C3_numeric _ _ _ "n" (JValue.obj [("type", JValue.str "integer")]) "abc"
      rfl (by decide) (by decide) (by decide) rfl⟩

/-- Claim C4 is false on the code: with a schema whose `properties` is the
empty mapping, the raw key `"x"` is not a property name, yet it appears in
the coerced result — raw keys outside the schema are not filtered out. -/
theorem claim_C4_counterexample :
    propertiesOf (JValue.obj [("properties", JValue.obj [])]) = Except.ok []
    ∧ submit_coerce (JValue.obj [("properties", JValue.obj [])]) [("x", "1")]
        = Except.ok [("x", JValue.str "1")]
    ∧ boolPropKeys [] = []
    ∧ dictHasKey [("x", JValue.str "1")] "x" = true := by
  refine ⟨rfl, rfl, rfl, rfl⟩

/-- Claim C4 (amended): the key set of the coerced result is the union of
the boolean-typed property names, the raw keys that are property names, and
also the raw keys that are not property names — the last group is passed
through rather than dropped. -/
theorem claim_C4_keyset_amended (schema : JValue) (props : JDict)
    (raw : List (String × String))
    (hp : propertiesOf schema = Except.ok props)
    (hobj : ∀ pp ∈ props, (pp.2).isObj = true) :
    ∃ conf, submit_coerce schema raw = Except.ok conf ∧
      ∀ k, (dictHasKey conf k = true ↔
        (k ∈ boolPropKeys props
          ∨ (dictHasKey raw k = true ∧ k ∈ dictKeys props)
          ∨ (dictHasKey raw k = true ∧ k ∉ dictKeys props))) := by
  refine ⟨_, submit_coerce_eq hp hobj, ?_⟩
  intro k
  rw [numFold_hasKey, boolFold_hasKey, dictHasKey_strEntries]
  constructor
  · rintro (h | h)
    · by_cases hm : k ∈ dictKeys props
      · exact Or.inr (Or.inl ⟨h, hm⟩)
      · exact Or.inr (Or.inr ⟨h, hm⟩)
    · exact Or.inl h
  · rintro (h | ⟨h, _⟩ | ⟨h, _⟩)
    · exact Or.inr h
    · exact Or.inl h
    · exact Or.inl h

/-- Concrete instance of the amended C4 at the counterexample input. -/
theorem claim_C4_amended_witness :
    ∃ conf, submit_coerce (JValue.obj [("properties", JValue.obj [])]) [("x", "1")]
        = Except.ok conf ∧
      ∀ k, (dictHasKey conf k = true ↔
        (k ∈ boolPropKeys []
          ∨ (dictHasKey [("x", "1")] k = true ∧ k ∈ dictKeys ([] : JDict))
          ∨ (dictHasKey [("x", "1")] k = true ∧ k ∉ dictKeys ([] : JDict)))) :=
  claim_C4_keyset_amended _ _ _ rfl (by decide)

/-- Claim C5 is false on the code as an "if and only if": here the schema
document is a mapping and its `properties` field is a mapping, so the schema
is structurally valid in the spec's sense, yet `get_default_values_from_schema`
raises (a `TypeError`, from `"default" in 5`), because the property schema
itself is not a mapping. -/
theorem claim_C5_counterexample :
    (JValue.obj [("properties", JValue.obj [("a", JValue.int 5)])]).isObj = true
    ∧ dictGet [("properties", JValue.obj [("a", JValue.int 5)])] "properties"
        = some (JValue.obj [("a", JValue.int 5)])
    ∧ (JValue.obj [("a", JValue.int 5)]).isObj = true
    ∧ get_default_values_from_schema
        (JValue.obj [("properties", JValue.obj [("a", JValue.int 5)])])
        = Except.error PyErr.typeError := by
  refine ⟨rfl, rfl, rfl, rfl⟩

/-- Claim C5 (amended): malformed values never raise — when the schema is a
mapping whose `properties` (if present) is a mapping of mapping property
schemas, both operations succeed for every raw input; and the failure cases
are structural: a non-mapping `properties` makes both operations raise, as
does a non-mapping schema document (the error which the spec names
`SchemaFormatError` is an `AttributeError` in the source).  What the
counterexample removes from the original claim is only the "only if":
a non-mapping property *schema* can also raise. -/
theorem claim_C5_error_semantics :
    (∀ (schema : JValue) (props : JDict) (raw : List (String × String)),
        propertiesOf schema = Except.ok props →
        (∀ pp ∈ props, (pp.2).isObj = true) →
        (∃ conf, submit_coerce schema raw = Except.ok conf)
          ∧ (∃ vals, get_default_values_from_schema schema = Except.ok vals))
    ∧ (∀ (kvs : JDict) (pv : JValue) (raw : List (String × String)),
        dictGet kvs "properties" = some pv → pv.isObj = false →
        submit_coerce (JValue.obj kvs) raw = Except.error PyErr.attributeError
          ∧ get_default_values_from_schema (JValue.obj kvs)
              = Except.error PyErr.attributeError)
    ∧ (∀ (schema : JValue) (raw : List (String × String)),
        schema.isObj = false →
        submit_coerce schema raw = Except.error PyErr.attributeError
          ∧ get_default_values_from_schema schema = Except.error PyErr.attributeError) := by
  refine ⟨?_, ?_, ?_⟩
  · intro schema props raw hp hobj
    exact ⟨⟨_, submit_coerce_eq hp hobj⟩, ⟨_, get_default_values_eq hp hobj⟩⟩
  · intro kvs pv raw hg hob
    have hprop : propertiesOf (JValue.obj kvs) = Except.error PyErr.attributeError := by
      cases pv with
      | obj o => simp [JValue.isObj] at hob
      | null => simp [propertiesOf, hg]
      | bool b => simp [propertiesOf, hg]
      | int n => simp [propertiesOf, hg]
      | float q => simp [propertiesOf, hg]
      | str s => simp [propertiesOf, hg]
      | arr xs => simp [propertiesOf, hg]
    exact ⟨by simp [submit_coerce, hprop], by simp [get_default_values_from_schema, hprop]⟩
  · intro schema raw hob
    have hprop : propertiesOf schema = Except.error PyErr.attributeError := by
      cases schema with
      | obj kvs => simp [JValue.isObj] at hob
      | null => rfl
      | bool b => rfl
      | int n => rfl
      | float q => rfl
      | str s => rfl
      | arr xs => rfl
    exact ⟨by simp [submit_coerce, hprop], by simp [get_default_values_from_schema, hprop]⟩

/-- Concrete instances of the amended C5: a malformed value (`"oops"` for an
integer property) does not raise, while a string-valued `properties` and a
non-mapping schema document make both operations raise. -/
theorem claim_C5_witness :
    (∃ conf, submit_coerce
        (JValue.obj [("properties",
          JValue.obj [("n", JValue.obj [("type", JValue.str "integer")])])])
        [("n", "oops")] = Except.ok conf)
    ∧ submit_coerce (JValue.obj [("properties", JValue.str "bad")]) []
        = Except.error PyErr.attributeError
    ∧ get_default_values_from_schema (JValue.obj [("properties", JValue.str "bad")])
        = Except.error PyErr.attributeError
    ∧ submit_coerce (JValue.str "nope") [] = Except.error PyErr.attributeError :=
  ⟨(claim_C5_error_semantics.1
      (JValue.obj [("properties",
        JValue.obj [("n", JValue.obj [("type", JValue.str "integer")])])])
      [("n", JValue.obj [("type", JValue.str "integer")])]
      [("n", "oops")] rfl (by decide)).1,
   (claim_C5_error_semantics.2.1 [("properties", JValue.str "bad")]
      (JValue.str "bad") [] rfl (by decide)).1,
   (claim_C5_error_semantics.2.1 [("properties", JValue.str "bad")]
      (JValue.str "bad") [] rfl (by decide)).2,
   (claim_C5_error_semantics.2.2 (JValue.str "nope") [] (by decide)).1⟩

/-- Claim C6: the extracted defaults hold exactly the properties that declare
a `default`, each mapped verbatim to it; the key set is a subset of the
property names, and an empty property list (in particular a schema without a
`properties` field) yields the empty result. -/
theorem claim_C6_defaults (schema : JValue) (props : JDict)
    (hp : propertiesOf schema = Except.ok props)
    (hobj : ∀ pp ∈ props, (pp.2).isObj = true)
    (hnd : (dictKeys props).Nodup) :
    ∃ vals, get_default_values_from_schema schema = Except.ok vals ∧
      (∀ k ps d, (k, ps) ∈ props → psDefault ps = some d → dictGet vals k = some d) ∧
      (∀ k, dictHasKey vals k = true ↔ ∃ ps d, (k, ps) ∈ props ∧ psDefault ps = some d) ∧
      (∀ k, dictHasKey vals k = true → k ∈ dictKeys props) ∧
      (props = [] → vals = []) := by
  refine ⟨_, get_default_values_eq hp hobj, ?_, ?_, ?_, ?_⟩
  · intro k ps d hm hd
    exact defaultsFold_get hnd hm hd []
  · intro k
    rw [defaultsFold_hasKey]
    simp [dictHasKey]
  · intro k hk
    rw [defaultsFold_hasKey] at hk
    rcases hk with h | ⟨ps, d, hm, _⟩
    · simp [dictHasKey] at h
    · exact mem_dictKeys_of_mem hm
  · rintro rfl
    rfl

/-- Concrete instance of C6, the spec's own example: `x` has default `"hi"`,
`y` declares none and is omitted. -/
theorem claim_C6_witness :
    ∃ vals, get_default_values_from_schema
        (JValue.obj [("properties", JValue.obj
          [("x", JValue.obj [("type", JValue.str "string"), ("default", JValue.str "hi")]),
           ("y", JValue.obj [("type", JValue.str "integer")])])])
        = Except.ok vals ∧
      (∀ k ps d,
        (k, ps) ∈ [("x", JValue.obj [("type", JValue.str "string"), ("default", JValue.str "hi")]),
           ("y", JValue.obj [("type", JValue.str "integer")])] →
        psDefault ps = some d → dictGet vals k = some d) ∧
      (∀ k, dictHasKey vals k = true ↔ ∃ ps d,
        (k, ps) ∈ [("x", JValue.obj [("type", JValue.str "string"), ("default", JValue.str "hi")]),
           ("y", JValue.obj [("type", JValue.str "integer")])] ∧ psDefault ps = some d) ∧
      (∀ k, dictHasKey vals k = true →
        k ∈ dictKeys [("x", JValue.obj [("type", JValue.str "string"), ("default", JValue.str "hi")]),
           ("y", JValue.obj [("type", JValue.str "integer")])]) ∧
      ([("x", JValue.obj [("type", JValue.str "string"), ("default", JValue.str "hi")]),
           ("y", JValue.obj [("type", JValue.str "integer")])] = ([] : JDict) → vals = []) :=
  claim_C6_defaults _ _ rfl (by decide) (by decide)

/-- Claim C7: both operations are pure functions of their inputs — results
depend on nothing but the schema (and, for coercion, the raw data), equal
inputs give equal outputs, and the schema value is never modified (the
embedding threads no state at all). -/
theorem claim_C7_pure (schema schema2 : JValue) (raw raw2 : List (String × String))
    (h1 : schema = schema2) (h2 : raw = raw2) :
    get_default_values_from_schema schema = get_default_values_from_schema schema2
    ∧ submit_coerce schema raw = submit_coerce schema2 raw2 := by
  subst h1
  subst h2
  exact ⟨rfl, rfl⟩

/-- Concrete instance of C7: two calls on the same schema agree. -/
theorem claim_C7_witness :
    get_default_values_from_schema (JValue.obj [("properties", JValue.obj [])])
      = get_default_values_from_schema (JValue.obj [("properties", JValue.obj [])])
    ∧ submit_coerce (JValue.obj [("properties", JValue.obj [])]) [("a", "1")]
      = submit_coerce (JValue.obj [("properties", JValue.obj [])]) [("a", "1")] :=
  claim_C7_pure _ _ _ _ rfl rfl

/-- Claim C8: when the path does not resolve to a readable file, the schema
loader fails with `FileNotFoundError` — not with a parse error and not by
returning a document. -/
theorem claim_C8_not_found (fileContents : String → Option String)
    (jsonLoad : String → Option JValue) (schemaPath : String)
    (h : fileContents schemaPath = none) :
    load_test_schema fileContents jsonLoad schemaPath
      = Except.error LoadErr.fileNotFoundError := by
  simp [load_test_schema, h]

/-- Concrete instance of C8: an empty file system. -/
theorem claim_C8_witness :
    load_test_schema (fun _ => none) (fun _ => none) "test_files/missing_schema.json"
      = Except.error LoadErr.fileNotFoundError :=
  claim_C8_not_found _ _ _ rfl

/-- Claim C9: a declared `default` is copied into the result verbatim, with
no check that it matches the declared `type` — the conclusion holds for an
arbitrary default value `d`, irrespective of the property's type. -/
theorem claim_C9_default_verbatim (schema : JValue) (props : JDict)
    (p : String) (ps d : JValue)
    (hp : propertiesOf schema = Except.ok props)
    (hobj : ∀ pp ∈ props, (pp.2).isObj = true)
    (hnd : (dictKeys props).Nodup)
    (hmem : (p, ps) ∈ props) (hd : psDefault ps = some d) :
    ∃ vals, get_default_values_from_schema schema = Except.ok vals ∧
      dictGet vals p = some d :=
  ⟨_, get_default_values_eq hp hobj, defaultsFold_get hnd hmem hd []⟩

/-- Concrete instance of C9: an integer-typed property with the string
default `"oops"` still yields that string verbatim. -/
theorem claim_C9_witness :
    propType (JValue.obj [("type", JValue.str "integer"), ("default", JValue.str "oops")])
      = some (JValue.str "integer")
    ∧ ∃ vals, get_default_values_from_schema
        (JValue.obj [("properties", JValue.obj
          [("x", JValue.obj [("type", JValue.str "integer"), ("default", JValue.str "oops")])])])
        = Except.ok vals ∧
      dictGet vals "x" = some (JValue.str "oops") :=
  ⟨rfl,
   claim_C9_default_verbatim _ _ "x"
     (JValue.obj [("type", JValue.str "integer"), ("default", JValue.str "oops")])
     (JValue.str "oops") rfl (by decide) (by decide) (by decide) rfl⟩

/-- Claim C10: a raw key that is not a property name of the schema passes
through: the coerced result maps it to its raw string value unchanged. -/
theorem claim_C10_unknown_passthrough (schema : JValue) (props : JDict)
    (raw : List (String × String)) (k v : String)
    (hp : propertiesOf schema = Except.ok props)
    (hobj : ∀ pp ∈ props, (pp.2).isObj = true)
    (hk : k ∉ dictKeys props) (hv : dictGet raw k = some v) :
    ∃ conf, submit_coerce schema raw = Except.ok conf ∧
      dictGet conf k = some (JValue.str v) := by
  refine ⟨_, submit_coerce_eq hp hobj, ?_⟩
  have h0 : dictGet (strEntries raw) k = some (.str v) := by
    rw [dictGet_strEntries, hv]
    rfl
  rw [numFold_get_not_mem _ _ _ hk, boolFold_get_not_mem _ _ _ hk, h0]

/-- Concrete instance of C10: the key `"u"` is unknown to a schema with one
boolean property and survives untouched. -/
theorem claim_C10_witness :
    ∃ conf, submit_coerce
        (JValue.obj [("properties", JValue.obj [("b", JValue.obj [("type", JValue.str "boolean")])])])
        [("u", "hello world")] = Except.ok conf ∧
      dictGet conf "u" = some (JValue.str "hello world") :=
  claim_C10_unknown_passthrough _ _ _ "u" "hello world" rfl (by decide) (by decide) rfl
